import Mathlib

/-!
Shallow embedding of the places backend (controllers/places-controller.js,
models/place.js, models/user.js) and proofs about its workflows.

The document store is modelled as explicit state (`DB`); external
collaborators (geocoder, image store, the store errors of each awaited
mongoose call) are an oracle environment (`Env`).  Mongoose transactions
(startSession / startTransaction / commitTransaction) are modelled with
their guaranteed semantics: the write phase either applies completely or
fails leaving the state unchanged.  Schema fields marked select:false
(place.image.fileId, user.password, user.image.fileId) are absent from any
fetched document, so serialization of a fetched document omits them; the
views below carry them as Option fields so that absence is observable.
JS runtime errors that no handler catches (for example dereferencing a
null document) are modelled by the distinct outcome `CResult.crash`.
-/

/-- Result of util/location getCoordinatesForAddress: address text plus
string coordinates, as stored by the place schema. -/
structure Geo where
  address : String
  lat : String
  lng : String
  deriving DecidableEq

/-- Result of imagekit.upload: public url plus internal fileId. -/
structure UploadResult where
  url : String
  fileId : String
  deriving DecidableEq

/-- Image subdocument shape shared by place and user schemas. -/
structure Image where
  url : String
  fileId : String
  deriving DecidableEq

/-- Location subdocument of the place schema. -/
structure Location where
  lat : String
  lng : String
  deriving DecidableEq

/-- Stored Place document (models/place.js).  Document ids are Nat. -/
structure Place where
  id : Nat
  title : String
  description : String
  image : Image
  address : String
  location : Location
  creator : Nat
  deriving DecidableEq

/-- Stored User document (models/user.js).  The image subdocument is
optional in the schema; places holds Place ids. -/
structure User where
  id : Nat
  name : String
  email : String
  password : String
  image : Option Image
  places : List Nat
  deriving DecidableEq

/-- The document store: both collections plus the id the store will assign
to the next inserted document. -/
structure DB where
  places : List Place
  users : List User
  nextId : Nat
  deriving DecidableEq

/-- Oracle environment: outcomes of the external calls and of each awaited
store operation.  geocode and upload return the collaborator result or the
error the JS call would reject with. -/
structure Env where
  geocode : String → Except (Nat × String) Geo
  upload : String → String → Except String UploadResult
  placesFindFails : Bool
  placeFindFails : Bool
  userFindFails : Bool
  userQueryFails : Bool
  saveFails : Bool
  txFails : Bool
  imageDeleteFails : Bool

/-- Outcome of one controller call: a JSON response with status, an
HttpError handed to next(), or an uncaught runtime error (no response). -/
inductive CResult (α : Type) where
  | ok (status : Nat) (payload : α)
  | err (status : Nat) (message : String)
  | crash
  deriving DecidableEq

/-- True exactly on the ok outcome. -/
def CResult.isOk {α : Type} : CResult α → Bool
  | .ok _ _ => true
  | _ => false

/-- Serialized image: fileId is none when the field is absent from the
JSON (select:false on fetch, or explicitly stripped). -/
structure ImageView where
  url : String
  fileId : Option String
  deriving DecidableEq

/-- Serialized Place with creator as a plain id. -/
structure PlaceView where
  id : Nat
  title : String
  description : String
  image : ImageView
  address : String
  location : Location
  creator : Nat
  deriving DecidableEq

/-- Serialized User with places as plain ids; password is none when absent
from the JSON. -/
structure UserView where
  id : Nat
  name : String
  email : String
  password : Option String
  image : Option ImageView
  places : List Nat
  deriving DecidableEq

/-- Serialized Place whose creator reference was populated: the full user
object, or none when the referenced user does not exist. -/
structure PlacePopView where
  id : Nat
  title : String
  description : String
  image : ImageView
  address : String
  location : Location
  creator : Option UserView
  deriving DecidableEq

/-- Serialized User whose places references were populated (mongoose drops
references that do not resolve). -/
structure UserPopView where
  id : Nat
  name : String
  email : String
  password : Option String
  image : Option ImageView
  places : List PlaceView
  deriving DecidableEq

/-- Place.findById: first document with the given id. -/
def findPlaceById (st : DB) (pid : Nat) : Option Place :=
  st.places.find? (fun p => p.id == pid)

/-- User.findById: first user document with the given id. -/
def findUserById (st : DB) (uid : Nat) : Option User :=
  st.users.find? (fun u => u.id == uid)

/-- toObject of a fetched Place: image.fileId has select:false, so it is
absent from the fetched document and from the serialization. -/
def placeToView (p : Place) : PlaceView :=
  { id := p.id, title := p.title, description := p.description,
    image := { url := p.image.url, fileId := none },
    address := p.address, location := p.location, creator := p.creator }

/-- toObject of a fetched User: password and image.fileId have
select:false, so both are absent. -/
def userToView (u : User) : UserView :=
  { id := u.id, name := u.name, email := u.email, password := none,
    image := u.image.map (fun im => { url := im.url, fileId := none }),
    places := u.places }

/-- toObject of a fetched Place whose creator was populated: a missing
referenced user populates as null. -/
def placePopView (st : DB) (p : Place) : PlacePopView :=
  { id := p.id, title := p.title, description := p.description,
    image := { url := p.image.url, fileId := none },
    address := p.address, location := p.location,
    creator := (findUserById st p.creator).map userToView }

/-- toObject of a fetched User whose places were populated: references
that do not resolve are dropped from the array. -/
def userPopView (st : DB) (u : User) : UserPopView :=
  { id := u.id, name := u.name, email := u.email, password := none,
    image := u.image.map (fun im => { url := im.url, fileId := none }),
    places := u.places.filterMap (fun pid => (findPlaceById st pid).map placeToView) }

/-- toObject of the in-memory createdPlace document: every field that was
set is present, including image.fileId (select:false only governs reads
from the store, not a document built in memory). -/
def memPlaceView (p : Place) : PlaceView :=
  { id := p.id, title := p.title, description := p.description,
    image := { url := p.image.url, fileId := some p.image.fileId },
    address := p.address, location := p.location, creator := p.creator }

/-- Response object of createPlace: toObject of the in-memory document,
then the spread that replaces image with url only, fileId undefined. -/
def createPlaceResponseView (p : Place) : PlaceView :=
  let v := memPlaceView p
  { v with image := { url := v.image.url, fileId := none } }

/-- In JS an array value is always truthy, even when empty, so the
controller check if (!places) never fires on a resolved find(). -/
def jsFalsyArray (_l : List PlacePopView) : Bool :=
  false

/-- GET /places (getAllPlaces): Place.find().populate("creator"); 404 when
the query rejects; the !places guard is evaluated on the array. -/
def getAllPlaces (env : Env) (st : DB) : CResult (List PlacePopView) :=
  if env.placesFindFails then .err 404 "Could not find any place."
  else
    let places := st.places.map (placePopView st)
    if jsFalsyArray places then .err 404 "Could not find any place."
    else .ok 200 places

/-- GET /places/:pid (getPlaceById). -/
def getPlaceById (env : Env) (st : DB) (pid : Nat) : CResult PlaceView :=
  if env.placeFindFails then
    .err 500 "Something went wrong, could not find a place."
  else
    match findPlaceById st pid with
    | none => .err 404 "Could not find a place for the provided place id."
    | some p => .ok 200 (placeToView p)

/-- GET /places/user/:username (getPlacesByUserId): User.findOne by name,
populate places; 404 when the user is missing or the populated places
array is empty. -/
def getPlacesByUserId (env : Env) (st : DB) (username : String) :
    CResult UserPopView :=
  if env.userQueryFails then .err 404 "Fetching places failed, please try again."
  else
    match st.users.find? (fun u => u.name == username) with
    | none => .err 404 "Could not find a place with that user id."
    | some u =>
      let v := userPopView st u
      if v.places.isEmpty then
        .err 404 "Could not find a place with that user id."
      else .ok 200 v

/-- Request data of POST /places: authenticated caller id, validated body
fields, the uploaded file bytes, and the param names express-validator
flagged (empty when validation passed). -/
structure CreateReq where
  userId : Nat
  title : String
  description : String
  address : String
  fileBuffer : String
  invalidParams : List String
  deriving DecidableEq

/-- Outcome of createPlace: the response, the resulting store state, and
whether the image upload call was made. -/
structure CreateOut where
  result : CResult PlaceView
  st : DB
  uploadCalled : Bool
  deriving DecidableEq

/-- The new Place document built by createPlace: the store assigns the
next id; address and location come from geocoding, image from the upload
result, creator from the authenticated caller. -/
def createdPlaceOf (st : DB) (req : CreateReq) (g : Geo) (up : UploadResult) :
    Place :=
  { id := st.nextId, title := req.title, description := req.description,
    image := { url := up.url, fileId := up.fileId },
    address := g.address, location := { lat := g.lat, lng := g.lng },
    creator := req.userId }

/-- Saving the user document on which createPlace pushed the new Place id:
the stored user with the creator id gets the appended places list. -/
def pushPlace (pid cid : Nat) (u : User) : User :=
  if u.id = cid then { u with places := u.places ++ [pid] } else u

/-- Committed write phase of createPlace: insert the Place and save the
user document with the new id pushed onto places. -/
def applyCreate (st : DB) (p : Place) : DB :=
  { places := st.places ++ [p],
    users := st.users.map (pushPlace p.id p.creator),
    nextId := st.nextId + 1 }

/-- POST /places (createPlace): validation, geocode, upload, user lookup,
then the transactional write phase; on transaction failure nothing of the
write phase survives. -/
def createPlace (env : Env) (st : DB) (req : CreateReq) : CreateOut :=
  if req.invalidParams.isEmpty = false then
    { result := .err 422 ("Invalid input of " ++ String.intercalate "," req.invalidParams),
      st := st, uploadCalled := false }
  else
    match env.geocode req.address with
    | .error e => { result := .err e.1 e.2, st := st, uploadCalled := false }
    | .ok g =>
      match env.upload req.fileBuffer req.title.toLower with
      | .error msg => { result := .err 500 msg, st := st, uploadCalled := true }
      | .ok up =>
        let createdPlace := createdPlaceOf st req g up
        if env.userFindFails then
          { result := .err 404 "Could not find a user with the provided id.",
            st := st, uploadCalled := true }
        else
          match findUserById st req.userId with
          | none =>
            { result := .err 404 "Could not find a user with the provided id.",
              st := st, uploadCalled := true }
          | some _ =>
            if env.txFails then
              { result := .err 500 "Creating place failed, please try again.",
                st := st, uploadCalled := true }
            else
              { result := .ok 201 (createPlaceResponseView createdPlace),
                st := applyCreate st createdPlace, uploadCalled := true }

/-- Request data of PATCH /places/:pid. -/
structure UpdateReq where
  userId : Nat
  pid : Nat
  title : String
  description : String
  invalidParams : List String
  deriving DecidableEq

/-- Outcome of updatePlace: the response and the resulting store state. -/
structure UpdateOut where
  result : CResult PlaceView
  st : DB
  deriving DecidableEq

/-- Saved update of a Place document: the stored document with that id is
replaced. -/
def applyUpdate (st : DB) (p : Place) : DB :=
  { st with places := st.places.map (fun q => if q.id = p.id then p else q) }

/-- PATCH /places/:pid (updatePlace).  The controller has no null check
after findById: when the place id resolves to no document the next line
dereferences null (place.creator) and the async handler crashes with an
uncaught TypeError, sending no response. -/
def updatePlace (env : Env) (st : DB) (req : UpdateReq) : UpdateOut :=
  if req.invalidParams.isEmpty = false then
    { result := .err 422 ("Invalid input of " ++ String.intercalate "," req.invalidParams),
      st := st }
  else if env.placeFindFails then
    { result := .err 500 "Could not find a place for the provided place id.", st := st }
  else
    match findPlaceById st req.pid with
    | none => { result := .crash, st := st }
    | some p =>
      if p.creator ≠ req.userId then
        { result := .err 401 "You are not allowed to edit this place.", st := st }
      else
        let p2 := { p with title := req.title, description := req.description }
        if env.saveFails then
          { result := .err 500 "Something went wrong, could not update place.", st := st }
        else
          { result := .ok 200 (placeToView p2), st := applyUpdate st p2 }

/-- Outcome of deletePlace: the response, the resulting store state, and
whether the fire-and-forget image deletion was issued. -/
structure DeleteOut where
  result : CResult String
  st : DB
  imageDeleteIssued : Bool
  deriving DecidableEq

/-- Saving the owner document from which deletePlace pulled the Place id:
pull removes every occurrence from the places list. -/
def pullPlace (pid oid : Nat) (u : User) : User :=
  if u.id = oid then { u with places := u.places.filter (fun x => x != pid) } else u

/-- Committed write phase of deletePlace: the Place document is removed
and the owner saved with the pulled places list. -/
def applyDelete (st : DB) (pid ownerId : Nat) : DB :=
  { places := st.places.filter (fun q => q.id != pid),
    users := st.users.map (pullPlace pid ownerId),
    nextId := st.nextId }

/-- DELETE /places/:pid (deletePlace): load the place with its creator
populated; populate of a missing creator yields null, so the later
place.creator.id dereference crashes.  After the commit the image is
deleted by fileId fire-and-forget: an imageDeleteFails outcome is only
logged and never alters the response. -/
def deletePlace (env : Env) (st : DB) (userId pid : Nat) : DeleteOut :=
  if env.placeFindFails then
    { result := .err 404 "Could not find a place for the provided id.",
      st := st, imageDeleteIssued := false }
  else
    match findPlaceById st pid with
    | none =>
      { result := .err 404 "Could not find a place for the provided id.",
        st := st, imageDeleteIssued := false }
    | some p =>
      match findUserById st p.creator with
      | none => { result := .crash, st := st, imageDeleteIssued := false }
      | some owner =>
        if owner.id ≠ userId then
          { result := .err 401 "You are not allowed to delete this place.",
            st := st, imageDeleteIssued := false }
        else if env.txFails then
          { result := .err 500 "Could not find a place for the provided id.",
            st := st, imageDeleteIssued := false }
        else
          { result := .ok 200 "Deleted place.",
            st := applyDelete st pid owner.id, imageDeleteIssued := true }

/-! Specification predicates. -/

/-- Forward half of referential integrity: every Place names an existing
creator whose places collection contains the Place id. -/
def integrityF (st : DB) : Prop :=
  ∀ p ∈ st.places, ∃ u ∈ st.users, u.id = p.creator ∧ p.id ∈ u.places

/-- Backward half of referential integrity: every id in any places
collection resolves to a Place created by that user. -/
def integrityB (st : DB) : Prop :=
  ∀ u ∈ st.users, ∀ pid ∈ u.places, ∃ p ∈ st.places, p.id = pid ∧ p.creator = u.id

/-- Bidirectional referential integrity of the store. -/
def integrity (st : DB) : Prop :=
  integrityF st ∧ integrityB st

instance (st : DB) : Decidable (integrityF st) := by
  unfold integrityF; infer_instance

instance (st : DB) : Decidable (integrityB st) := by
  unfold integrityB; infer_instance

instance (st : DB) : Decidable (integrity st) := by
  unfold integrity; infer_instance

/-- Stored Place ids are pairwise distinct, as document ids are. -/
def placeIdsNodup (st : DB) : Prop :=
  (st.places.map Place.id).Nodup

instance (st : DB) : Decidable (placeIdsNodup st) := by
  unfold placeIdsNodup; infer_instance

/-- A serialized image carries no storage handle. -/
def ImageView.clean (iv : ImageView) : Prop :=
  iv.fileId = none

/-- A serialized Place carries no storage handle. -/
def PlaceView.clean (v : PlaceView) : Prop :=
  v.image.clean

/-- A serialized User carries no password and no storage handle. -/
def UserView.clean (v : UserView) : Prop :=
  v.password = none ∧ ∀ iv ∈ v.image, iv.clean

/-- A serialized Place with populated creator is clean together with the
embedded user object. -/
def PlacePopView.clean (v : PlacePopView) : Prop :=
  v.image.clean ∧ ∀ uv ∈ v.creator, uv.clean

/-- A serialized User with populated places is clean together with every
embedded place object. -/
def UserPopView.clean (v : UserPopView) : Prop :=
  v.password = none ∧ (∀ iv ∈ v.image, iv.clean) ∧ ∀ pv ∈ v.places, pv.clean

/-! Concrete fixtures used by witnesses and counterexamples. -/

/-- Environment in which every collaborator call succeeds. -/
def env0 : Env :=
  { geocode := fun a => .ok { address := a, lat := "37.422", lng := "-122.084" },
    upload := fun _ _ => .ok { url := "https://ik.imagekit.io/places/office", fileId := "fid-1" },
    placesFindFails := false, placeFindFails := false, userFindFails := false,
    userQueryFails := false, saveFails := false, txFails := false,
    imageDeleteFails := false }

/-- Environment whose transactional write phase fails. -/
def envTx : Env :=
  { env0 with txFails := true }

/-- Environment whose geocoding call rejects. -/
def envGeo : Env :=
  { env0 with geocode := fun _ => .error (422, "Could not find location for the specified address.") }

/-- Environment whose image upload rejects. -/
def envUp : Env :=
  { env0 with upload := fun _ _ => .error "Upload failed." }

/-- A store with one user owning one place, satisfying integrity. -/
def st1 : DB :=
  { places := [{ id := 10, title := "Office", description := "HQ",
                 image := { url := "https://ik.imagekit.io/places/office", fileId := "fid-0" },
                 address := "1600 Amphitheatre Pkwy",
                 location := { lat := "37.422", lng := "-122.084" },
                 creator := 1 }],
    users := [{ id := 1, name := "alice", email := "alice@example.com",
                password := "secret1", image := none, places := [10] }],
    nextId := 11 }

/-- A well-formed creation request by user 1. -/
def reqC : CreateReq :=
  { userId := 1, title := "Cafe", description := "Nice",
    address := "Some street 5", fileBuffer := "bytes", invalidParams := [] }

/-- A creation request by a caller id that resolves to no user. -/
def reqCMissing : CreateReq :=
  { reqC with userId := 5 }

/-- A well-formed update request on place 10 by a non-owner. -/
def reqU2 : UpdateReq :=
  { userId := 2, pid := 10, title := "New", description := "New", invalidParams := [] }

/-- A well-formed update request on a place id that resolves to nothing. -/
def reqU99 : UpdateReq :=
  { userId := 1, pid := 99, title := "New", description := "New", invalidParams := [] }

/-! Helper lemmas about the saved user documents. -/

theorem pushPlace_id (pid cid : Nat) (u : User) :
    (pushPlace pid cid u).id = u.id := by
  unfold pushPlace; split <;> rfl

theorem pushPlace_places_sub (pid cid : Nat) (u : User) :
    ∀ x ∈ u.places, x ∈ (pushPlace pid cid u).places := by
  intro x hx; unfold pushPlace; split
  · exact List.mem_append.mpr (Or.inl hx)
  · exact hx

theorem pushPlace_mem_self (pid cid : Nat) (u : User) (h : u.id = cid) :
    pid ∈ (pushPlace pid cid u).places := by
  unfold pushPlace; rw [if_pos h]
  exact List.mem_append.mpr (Or.inr (List.mem_singleton.mpr rfl))

theorem pushPlace_places_cases (pid cid : Nat) (u : User) :
    (pushPlace pid cid u).places = u.places ∨
      ((pushPlace pid cid u).places = u.places ++ [pid] ∧ u.id = cid) := by
  unfold pushPlace; split
  · exact Or.inr ⟨rfl, by assumption⟩
  · exact Or.inl rfl

theorem pullPlace_id (pid oid : Nat) (u : User) :
    (pullPlace pid oid u).id = u.id := by
  unfold pullPlace; split <;> rfl

theorem pullPlace_places_sub (pid oid : Nat) (u : User) :
    ∀ x ∈ (pullPlace pid oid u).places, x ∈ u.places := by
  intro x hx; unfold pullPlace at hx; split at hx
  · exact (List.mem_filter.mp hx).1
  · exact hx

theorem mem_pullPlace (pid oid : Nat) (u : User) {x : Nat}
    (hx : x ∈ u.places) (hne : x ≠ pid) :
    x ∈ (pullPlace pid oid u).places := by
  unfold pullPlace; split
  · exact List.mem_filter.mpr ⟨hx, by simpa using hne⟩
  · exact hx

theorem pullPlace_ne (pid oid : Nat) (u : User) (hu : u.id = oid) {x : Nat}
    (hx : x ∈ (pullPlace pid oid u).places) : x ≠ pid := by
  unfold pullPlace at hx; rw [if_pos hu] at hx
  simpa using (List.mem_filter.mp hx).2

/-! Integrity preservation of the three committed write phases. -/

theorem integrity_applyCreate (st : DB) (p : Place)
    (hint : integrity st)
    (hu : ∃ u ∈ st.users, u.id = p.creator) :
    integrity (applyCreate st p) := by
  obtain ⟨hF, hB⟩ := hint
  constructor
  · intro q hq
    simp only [applyCreate, List.mem_append, List.mem_singleton] at hq
    rcases hq with hq | rfl
    · obtain ⟨u0, hu0, hid, hpm⟩ := hF q hq
      refine ⟨pushPlace p.id p.creator u0, ?_, ?_, ?_⟩
      · simp only [applyCreate]
        exact List.mem_map_of_mem _ hu0
      · rw [pushPlace_id]; exact hid
      · exact pushPlace_places_sub _ _ _ _ hpm
    · obtain ⟨u0, hu0, hc⟩ := hu
      refine ⟨pushPlace q.id q.creator u0, ?_, ?_, ?_⟩
      · simp only [applyCreate]
        exact List.mem_map_of_mem _ hu0
      · rw [pushPlace_id]; exact hc
      · exact pushPlace_mem_self _ _ _ hc
  · intro v2 hv2 pid hpidmem
    simp only [applyCreate, List.mem_map] at hv2
    obtain ⟨v, hv, rfl⟩ := hv2
    rcases pushPlace_places_cases p.id p.creator v with hca | ⟨hca, hvc⟩
    · rw [hca] at hpidmem
      obtain ⟨q, hq, hqid, hqcr⟩ := hB v hv pid hpidmem
      refine ⟨q, ?_, hqid, ?_⟩
      · simp only [applyCreate, List.mem_append]
        exact Or.inl hq
      · rw [hqcr, pushPlace_id]
    · rw [hca] at hpidmem
      rcases List.mem_append.mp hpidmem with hmem | hmem
      · obtain ⟨q, hq, hqid, hqcr⟩ := hB v hv pid hmem
        refine ⟨q, ?_, hqid, ?_⟩
        · simp only [applyCreate, List.mem_append]
          exact Or.inl hq
        · rw [hqcr, pushPlace_id]
      · have hpe : pid = p.id := List.mem_singleton.mp hmem
        refine ⟨p, ?_, hpe.symm, ?_⟩
        · simp [applyCreate]
        · rw [pushPlace_id, hvc]

theorem integrity_applyUpdate (st : DB) (p2 : Place)
    (hnd : placeIdsNodup st)
    (hint : integrity st)
    (hp : ∃ p ∈ st.places, p.id = p2.id ∧ p.creator = p2.creator) :
    integrity (applyUpdate st p2) := by
  obtain ⟨hF, hB⟩ := hint
  obtain ⟨p0, hp0, hpid, hpcr⟩ := hp
  constructor
  · intro q hq
    simp only [applyUpdate, List.mem_map] at hq
    obtain ⟨q0, hq0, rfl⟩ := hq
    by_cases hc : q0.id = p2.id
    · rw [if_pos hc]
      obtain ⟨u0, hu0, hid, hpm⟩ := hF p0 hp0
      exact ⟨u0, hu0, by rw [hid, hpcr], by rw [← hpid]; exact hpm⟩
    · rw [if_neg hc]
      exact hF q0 hq0
  · intro u hu pid hpidmem
    obtain ⟨q0, hq0, hqid, hqcr⟩ := hB u hu pid hpidmem
    by_cases hc : q0.id = p2.id
    · have hq0p0 : q0 = p0 :=
        List.inj_on_of_nodup_map hnd hq0 hp0 (by rw [hc, hpid])
      refine ⟨p2, ?_, ?_, ?_⟩
      · simp only [applyUpdate, List.mem_map]
        exact ⟨q0, hq0, by rw [if_pos hc]⟩
      · rw [← hc]; exact hqid
      · rw [← hpcr, ← hq0p0]; exact hqcr
    · refine ⟨q0, ?_, hqid, hqcr⟩
      simp only [applyUpdate, List.mem_map]
      exact ⟨q0, hq0, by rw [if_neg hc]⟩

theorem integrity_applyDelete (st : DB) (pd : Place)
    (hnd : placeIdsNodup st)
    (hint : integrity st)
    (hpd : pd ∈ st.places) :
    integrity (applyDelete st pd.id pd.creator) := by
  obtain ⟨hF, hB⟩ := hint
  constructor
  · intro q hq
    simp only [applyDelete, List.mem_filter] at hq
    obtain ⟨hq, hqb⟩ := hq
    have hqid : q.id ≠ pd.id := by simpa using hqb
    obtain ⟨u0, hu0, hid, hpm⟩ := hF q hq
    refine ⟨pullPlace pd.id pd.creator u0, ?_, ?_, ?_⟩
    · simp only [applyDelete]
      exact List.mem_map_of_mem _ hu0
    · rw [pullPlace_id]; exact hid
    · exact mem_pullPlace _ _ _ hpm hqid
  · intro v2 hv2 pid hpidmem
    simp only [applyDelete, List.mem_map] at hv2
    obtain ⟨v, hv, rfl⟩ := hv2
    have hmem : pid ∈ v.places := pullPlace_places_sub _ _ _ _ hpidmem
    obtain ⟨q, hq, hqid, hqcr⟩ := hB v hv pid hmem
    have hqne : q.id ≠ pd.id := by
      by_cases hvc : v.id = pd.creator
      · rw [hqid]; exact pullPlace_ne _ _ _ hvc hpidmem
      · intro hqe
        have hqpd : q = pd := List.inj_on_of_nodup_map hnd hq hpd hqe
        rw [hqpd] at hqcr
        exact hvc hqcr.symm
    refine ⟨q, ?_, hqid, ?_⟩
    · simp only [applyDelete, List.mem_filter]
      exact ⟨hq, by simpa using hqne⟩
    · rw [hqcr, pullPlace_id]

/-- C1: bidirectional referential integrity is an invariant preserved by
every workflow: if the store satisfies it (and document ids are distinct)
then after any successful createPlace, updatePlace or deletePlace call the
resulting store still satisfies it: every Place names an existing creator
whose places collection contains its id, and every id in any places
collection resolves to a Place created by that user. -/
theorem C1_integrity_preserved_by_workflows (env : Env) (st : DB)
    (hnd : placeIdsNodup st) (hint : integrity st) :
    (∀ req : CreateReq, (createPlace env st req).result.isOk = true →
        integrity (createPlace env st req).st) ∧
    (∀ req : UpdateReq, (updatePlace env st req).result.isOk = true →
        integrity (updatePlace env st req).st) ∧
    (∀ userId pid : Nat, (deletePlace env st userId pid).result.isOk = true →
        integrity (deletePlace env st userId pid).st) := by
  refine ⟨?_, ?_, ?_⟩
  · intro req hok
    cases hval : req.invalidParams.isEmpty with
    | false => simp [createPlace, hval, CResult.isOk] at hok
    | true =>
      rcases hg : env.geocode req.address with e | g
      · simp [createPlace, hval, hg, CResult.isOk] at hok
      · rcases hup : env.upload req.fileBuffer req.title.toLower with msg | up
        · simp [createPlace, hval, hg, hup, CResult.isOk] at hok
        · by_cases huf : env.userFindFails
          · simp [createPlace, hval, hg, hup, huf, CResult.isOk] at hok
          · rcases hu : findUserById st req.userId with _ | u
            · simp [createPlace, hval, hg, hup, huf, hu, CResult.isOk] at hok
            · by_cases htx : env.txFails
              · simp [createPlace, hval, hg, hup, huf, hu, htx, CResult.isOk] at hok
              · have hst : (createPlace env st req).st
                    = applyCreate st (createdPlaceOf st req g up) := by
                  simp [createPlace, hval, hg, hup, huf, hu, htx]
                rw [hst]
                apply integrity_applyCreate st _ hint
                refine ⟨u, List.mem_of_find?_eq_some hu, ?_⟩
                have huid : u.id = req.userId := by simpa using List.find?_some hu
                simpa [createdPlaceOf] using huid
  · intro req hok
    cases hval : req.invalidParams.isEmpty with
    | false => simp [updatePlace, hval, CResult.isOk] at hok
    | true =>
      by_cases hpf : env.placeFindFails
      · simp [updatePlace, hval, hpf, CResult.isOk] at hok
      · rcases hp : findPlaceById st req.pid with _ | p
        · simp [updatePlace, hval, hpf, hp, CResult.isOk] at hok
        · by_cases hcr : p.creator ≠ req.userId
          · simp [updatePlace, hval, hpf, hp, hcr, CResult.isOk] at hok
          · simp only [ne_eq, not_not] at hcr
            by_cases hsf : env.saveFails
            · simp [updatePlace, hval, hpf, hp, hcr, hsf, CResult.isOk] at hok
            · have hst : (updatePlace env st req).st
                  = applyUpdate st
                      { p with title := req.title, description := req.description } := by
                simp [updatePlace, hval, hpf, hp, hcr, hsf]
              rw [hst]
              apply integrity_applyUpdate st _ hnd hint
              exact ⟨p, List.mem_of_find?_eq_some hp, rfl, rfl⟩
  · intro userId pid hok
    by_cases hpf : env.placeFindFails
    · simp [deletePlace, hpf, CResult.isOk] at hok
    · rcases hp : findPlaceById st pid with _ | p
      · simp [deletePlace, hpf, hp, CResult.isOk] at hok
      · rcases ho : findUserById st p.creator with _ | owner
        · simp [deletePlace, hpf, hp, ho, CResult.isOk] at hok
        · by_cases hown : owner.id ≠ userId
          · simp [deletePlace, hpf, hp, ho, hown, CResult.isOk] at hok
          · by_cases htx : env.txFails
            · simp [deletePlace, hpf, hp, ho, hown, htx, CResult.isOk] at hok
            · have hoid : owner.id = p.creator := by simpa using List.find?_some ho
              have hpid : p.id = pid := by simpa using List.find?_some hp
              have hst : (deletePlace env st userId pid).st
                  = applyDelete st pid owner.id := by
                simp [deletePlace, hpf, hp, ho, hown, htx]
              rw [hst, hoid, ← hpid]
              exact integrity_applyDelete st p hnd hint (List.mem_of_find?_eq_some hp)

/-- Witness for C1: on the concrete store st1 the hypotheses hold, the
delete succeeds, and integrity holds afterwards. -/
theorem C1_witness :
    placeIdsNodup st1 ∧ integrity st1 ∧
      integrity (deletePlace env0 st1 1 10).st :=
  ⟨by decide, by decide,
    (C1_integrity_preserved_by_workflows env0 st1 (by decide) (by decide)).2.2
      1 10 (by decide)⟩

/-! Shape of the successful outcome of each mutating workflow. -/

theorem createPlace_ok_cases (env : Env) (st : DB) (req : CreateReq)
    (hok : (createPlace env st req).result.isOk = true) :
    ∃ g up u, req.invalidParams.isEmpty = true ∧
      env.geocode req.address = .ok g ∧
      env.upload req.fileBuffer req.title.toLower = .ok up ∧
      env.userFindFails = false ∧
      findUserById st req.userId = some u ∧
      env.txFails = false ∧
      createPlace env st req =
        { result := .ok 201 (createPlaceResponseView (createdPlaceOf st req g up)),
          st := applyCreate st (createdPlaceOf st req g up),
          uploadCalled := true } := by
  cases hval : req.invalidParams.isEmpty with
  | false => simp [createPlace, hval, CResult.isOk] at hok
  | true =>
    rcases hg : env.geocode req.address with e | g
    · simp [createPlace, hval, hg, CResult.isOk] at hok
    · rcases hup : env.upload req.fileBuffer req.title.toLower with msg | up
      · simp [createPlace, hval, hg, hup, CResult.isOk] at hok
      · by_cases huf : env.userFindFails
        · simp [createPlace, hval, hg, hup, huf, CResult.isOk] at hok
        · rcases hu : findUserById st req.userId with _ | u
          · simp [createPlace, hval, hg, hup, huf, hu, CResult.isOk] at hok
          · by_cases htx : env.txFails
            · simp [createPlace, hval, hg, hup, huf, hu, htx, CResult.isOk] at hok
            · refine ⟨g, up, u, rfl, rfl, rfl, ?_, rfl, ?_, ?_⟩
              · simpa using huf
              · simpa using htx
              · simp [createPlace, hval, hg, hup, huf, hu, htx]

theorem updatePlace_ok_cases (env : Env) (st : DB) (req : UpdateReq)
    (hok : (updatePlace env st req).result.isOk = true) :
    ∃ p, req.invalidParams.isEmpty = true ∧
      env.placeFindFails = false ∧
      findPlaceById st req.pid = some p ∧
      p.creator = req.userId ∧
      env.saveFails = false ∧
      updatePlace env st req =
        { result := .ok 200 (placeToView
            { p with title := req.title, description := req.description }),
          st := applyUpdate st
            { p with title := req.title, description := req.description } } := by
  cases hval : req.invalidParams.isEmpty with
  | false => simp [updatePlace, hval, CResult.isOk] at hok
  | true =>
    by_cases hpf : env.placeFindFails
    · simp [updatePlace, hval, hpf, CResult.isOk] at hok
    · rcases hp : findPlaceById st req.pid with _ | p
      · simp [updatePlace, hval, hpf, hp, CResult.isOk] at hok
      · by_cases hcr : p.creator ≠ req.userId
        · simp [updatePlace, hval, hpf, hp, hcr, CResult.isOk] at hok
        · simp only [ne_eq, not_not] at hcr
          by_cases hsf : env.saveFails
          · simp [updatePlace, hval, hpf, hp, hcr, hsf, CResult.isOk] at hok
          · refine ⟨p, rfl, ?_, rfl, hcr, ?_, ?_⟩
            · simpa using hpf
            · simpa using hsf
            · simp [updatePlace, hval, hpf, hp, hcr, hsf]

theorem deletePlace_ok_cases (env : Env) (st : DB) (userId pid : Nat)
    (hok : (deletePlace env st userId pid).result.isOk = true) :
    ∃ p owner, env.placeFindFails = false ∧
      findPlaceById st pid = some p ∧
      findUserById st p.creator = some owner ∧
      owner.id = userId ∧
      env.txFails = false ∧
      deletePlace env st userId pid =
        { result := .ok 200 "Deleted place.",
          st := applyDelete st pid owner.id,
          imageDeleteIssued := true } := by
  by_cases hpf : env.placeFindFails
  · simp [deletePlace, hpf, CResult.isOk] at hok
  · rcases hp : findPlaceById st pid with _ | p
    · simp [deletePlace, hpf, hp, CResult.isOk] at hok
    · rcases ho : findUserById st p.creator with _ | owner
      · simp [deletePlace, hpf, hp, ho, CResult.isOk] at hok
      · by_cases hown : owner.id ≠ userId
        · simp [deletePlace, hpf, hp, ho, hown, CResult.isOk] at hok
        · simp only [ne_eq, not_not] at hown
          by_cases htx : env.txFails
          · simp [deletePlace, hpf, hp, ho, hown, htx, CResult.isOk] at hok
          · refine ⟨p, owner, ?_, rfl, ho, hown, ?_, ?_⟩
            · simpa using hpf
            · simpa using htx
            · simp [deletePlace, hpf, hp, ho, hown, htx]

/-- C2: when the transactional write phase of createPlace fails, no
partial write survives: the store afterwards is exactly the store before,
so neither the new Place nor the appended user reference is visible, and
the caller receives exactly the one generic creation failure error. -/
theorem C2_create_write_failure_atomic (env : Env) (st : DB) (req : CreateReq)
    (hval : req.invalidParams = [])
    (g : Geo) (hg : env.geocode req.address = .ok g)
    (up : UploadResult)
    (hup : env.upload req.fileBuffer req.title.toLower = .ok up)
    (huf : env.userFindFails = false)
    (u : User) (hu : findUserById st req.userId = some u)
    (htx : env.txFails = true) :
    (createPlace env st req).st = st ∧
    (createPlace env st req).result
      = .err 500 "Creating place failed, please try again." := by
  constructor <;> simp [createPlace, hval, hg, hup, huf, hu, htx]

/-- Witness for C2 at the concrete environment whose write phase fails. -/
theorem C2_witness :
    (createPlace envTx st1 reqC).st = st1 ∧
    (createPlace envTx st1 reqC).result
      = .err 500 "Creating place failed, please try again." :=
  C2_create_write_failure_atomic envTx st1 reqC rfl _ rfl _ rfl rfl _ rfl rfl

/-- C3: a successful createPlace produces a Place whose creator is the
authenticated caller, and in the resulting store the places collection of
every user document with the caller id contains the fresh Place id exactly
once; freshness of the assigned id is the precondition that the store
never reuses live ids. -/
theorem C3_create_creator_and_unique_membership (env : Env) (st : DB)
    (req : CreateReq)
    (hfresh : ∀ u ∈ st.users, st.nextId ∉ u.places)
    (hok : (createPlace env st req).result.isOk = true) :
    (∃ s v, (createPlace env st req).result = .ok s v ∧
        v.creator = req.userId ∧ v.id = st.nextId) ∧
    (∀ u2 ∈ (createPlace env st req).st.users, u2.id = req.userId →
        u2.places.count st.nextId = 1) := by
  obtain ⟨g, up, u, -, -, -, -, -, -, heq⟩ := createPlace_ok_cases env st req hok
  constructor
  · refine ⟨201, createPlaceResponseView (createdPlaceOf st req g up), ?_, rfl, rfl⟩
    rw [heq]
  · intro u2 hu2 hid
    rw [heq] at hu2
    simp only [applyCreate, List.mem_map] at hu2
    obtain ⟨v, hv, rfl⟩ := hu2
    rw [pushPlace_id] at hid
    have hvid : v.id = (createdPlaceOf st req g up).creator := hid
    unfold pushPlace
    rw [if_pos hvid]
    have h0 : v.places.count st.nextId = 0 :=
      List.count_eq_zero.mpr (hfresh v hv)
    simp [List.count_append, h0, createdPlaceOf]

/-- Witness for C3 at the concrete store st1 and request reqC. -/
theorem C3_witness :
    (∃ s v, (createPlace env0 st1 reqC).result = .ok s v ∧
        v.creator = reqC.userId ∧ v.id = st1.nextId) ∧
    (∀ u2 ∈ (createPlace env0 st1 reqC).st.users, u2.id = reqC.userId →
        u2.places.count st1.nextId = 1) :=
  C3_create_creator_and_unique_membership env0 st1 reqC (by decide) (by decide)

/-- C4: after a successful deletePlace the Place id no longer resolves to
a document, no user document with the former owner id still lists it, the
response is the confirmation message, and the whole outcome is the same
whichever way the fire-and-forget image deletion turns out. -/
theorem C4_delete_removes_place_and_reference (env : Env) (st : DB)
    (userId pid : Nat)
    (hok : (deletePlace env st userId pid).result.isOk = true) :
    (deletePlace env st userId pid).result = .ok 200 "Deleted place." ∧
    findPlaceById (deletePlace env st userId pid).st pid = none ∧
    (∀ u2 ∈ (deletePlace env st userId pid).st.users, u2.id = userId →
        pid ∉ u2.places) ∧
    (∀ b : Bool,
        deletePlace { env with imageDeleteFails := b } st userId pid
          = deletePlace env st userId pid) := by
  obtain ⟨p, owner, -, -, -, hown, -, heq⟩ :=
    deletePlace_ok_cases env st userId pid hok
  refine ⟨by rw [heq], ?_, ?_, ?_⟩
  · rw [heq]
    apply List.find?_eq_none.mpr
    intro q hq
    simp only [applyDelete, List.mem_filter] at hq
    simpa using hq.2
  · intro u2 hu2 hid
    rw [heq] at hu2
    simp only [applyDelete, List.mem_map] at hu2
    obtain ⟨v, hv, rfl⟩ := hu2
    rw [pullPlace_id] at hid
    intro hmem
    exact pullPlace_ne pid owner.id v (by rw [hid, hown]) hmem rfl
  · intro b
    cases env
    rfl

/-- Witness for C4 at the concrete store st1. -/
theorem C4_witness :
    (deletePlace env0 st1 1 10).result = .ok 200 "Deleted place." ∧
    findPlaceById (deletePlace env0 st1 1 10).st 10 = none ∧
    (∀ u2 ∈ (deletePlace env0 st1 1 10).st.users, u2.id = 1 →
        10 ∉ u2.places) ∧
    (∀ b : Bool,
        deletePlace { env0 with imageDeleteFails := b } st1 1 10
          = deletePlace env0 st1 1 10) :=
  C4_delete_removes_place_and_reference env0 st1 1 10 (by decide)

/-- C5: the external calls of createPlace are ordered geocode, upload,
write: a geocoding failure aborts before the upload is attempted and
before any document is written, and an upload failure aborts before any
document is written. -/
theorem C5_create_external_call_ordering (env : Env) (st : DB)
    (req : CreateReq) (hval : req.invalidParams = []) :
    (∀ e, env.geocode req.address = .error e →
        (createPlace env st req).uploadCalled = false ∧
        (createPlace env st req).st = st) ∧
    (∀ g msg, env.geocode req.address = .ok g →
        env.upload req.fileBuffer req.title.toLower = .error msg →
        (createPlace env st req).st = st) := by
  constructor
  · intro e hg
    constructor <;> simp [createPlace, hval, hg]
  · intro g msg hg hup
    simp [createPlace, hval, hg, hup]

/-- Witness for C5 at the concrete environment whose geocoding fails. -/
theorem C5_witness :
    (createPlace envGeo st1 reqC).uploadCalled = false ∧
    (createPlace envGeo st1 reqC).st = st1 :=
  (C5_create_external_call_ordering envGeo st1 reqC rfl).1
    (422, "Could not find location for the specified address.") rfl

/-- C6: an updatePlace or deletePlace call whose authenticated caller is
not the creator of the loaded Place fails with the 401 NotAuthorized error
and leaves the store, hence both documents, completely unchanged. -/
theorem C6_non_owner_rejected_unchanged (env : Env) (st : DB) :
    (∀ req : UpdateReq, ∀ p : Place, req.invalidParams = [] →
        env.placeFindFails = false →
        findPlaceById st req.pid = some p → p.creator ≠ req.userId →
        (updatePlace env st req).result
            = .err 401 "You are not allowed to edit this place." ∧
        (updatePlace env st req).st = st) ∧
    (∀ userId pid : Nat, ∀ p : Place, ∀ owner : User,
        env.placeFindFails = false →
        findPlaceById st pid = some p →
        findUserById st p.creator = some owner → owner.id ≠ userId →
        (deletePlace env st userId pid).result
            = .err 401 "You are not allowed to delete this place." ∧
        (deletePlace env st userId pid).st = st) := by
  constructor
  · intro req p hval hpf hp hcr
    constructor <;> simp [updatePlace, hval, hpf, hp, hcr]
  · intro userId pid p owner hpf hp ho hown
    constructor <;> simp [deletePlace, hpf, hp, ho, hown]

/-- Witness for C6: user 2 attempts to update the place of user 1. -/
theorem C6_witness :
    (updatePlace env0 st1 reqU2).result
        = .err 401 "You are not allowed to edit this place." ∧
    (updatePlace env0 st1 reqU2).st = st1 :=
  (C6_non_owner_rejected_unchanged env0 st1).1 reqU2 _ rfl rfl rfl (by decide)

/-! Cleanliness of every serialization function. -/

theorem mapped_image_clean (o : Option Image) :
    ∀ iv ∈ o.map (fun im => ({ url := im.url, fileId := none } : ImageView)),
      iv.clean := by
  intro iv hiv
  cases o with
  | none => simp at hiv
  | some im =>
    simp only [Option.map_some', Option.mem_def, Option.some.injEq] at hiv
    rw [← hiv]
    rfl

theorem placeToView_clean (p : Place) : (placeToView p).clean := rfl

theorem createPlaceResponseView_clean (p : Place) :
    (createPlaceResponseView p).clean := rfl

theorem userToView_clean (u : User) : (userToView u).clean :=
  ⟨rfl, mapped_image_clean u.image⟩

theorem placePopView_clean (st : DB) (p : Place) :
    (placePopView st p).clean := by
  refine ⟨rfl, ?_⟩
  intro uv huv
  simp only [placePopView, Option.mem_def, Option.map_eq_some'] at huv
  obtain ⟨u, -, rfl⟩ := huv
  exact userToView_clean u

theorem userPopView_clean (st : DB) (u : User) :
    (userPopView st u).clean := by
  refine ⟨rfl, mapped_image_clean u.image, ?_⟩
  intro pv hpv
  simp only [userPopView, List.mem_filterMap] at hpv
  obtain ⟨pid, -, hmap⟩ := hpv
  obtain ⟨p, -, rfl⟩ := Option.map_eq_some'.mp hmap
  exact placeToView_clean p

/-- C7: no serialized response of any endpoint carries the image storage
handle or the password: every view in an ok payload of the six controllers
is clean, and the deletePlace payload is the bare confirmation string. -/
theorem C7_no_handle_or_password_in_responses (env : Env) (st : DB) :
    (∀ s vs, getAllPlaces env st = .ok s vs → ∀ v ∈ vs, v.clean) ∧
    (∀ pid s v, getPlaceById env st pid = .ok s v → v.clean) ∧
    (∀ name s v, getPlacesByUserId env st name = .ok s v → v.clean) ∧
    (∀ req s v, (createPlace env st req).result = .ok s v → v.clean) ∧
    (∀ req s v, (updatePlace env st req).result = .ok s v → v.clean) ∧
    (∀ userId pid s m, (deletePlace env st userId pid).result = .ok s m →
        m = "Deleted place.") := by
  refine ⟨?_, ?_, ?_, ?_, ?_, ?_⟩
  · intro s vs h v hv
    by_cases hpf : env.placesFindFails
    · simp [getAllPlaces, hpf] at h
    · simp [getAllPlaces, hpf, jsFalsyArray] at h
      obtain ⟨-, h2⟩ := h
      rw [← h2] at hv
      obtain ⟨p, -, rfl⟩ := List.mem_map.mp hv
      exact placePopView_clean st p
  · intro pid s v h
    by_cases hpf : env.placeFindFails
    · simp [getPlaceById, hpf] at h
    · rcases hp : findPlaceById st pid with _ | p
      · simp [getPlaceById, hpf, hp] at h
      · simp [getPlaceById, hpf, hp] at h
        rw [← h.2]
        exact placeToView_clean p
  · intro name s v h
    by_cases huq : env.userQueryFails
    · simp [getPlacesByUserId, huq] at h
    · rcases hfind : st.users.find? (fun u => u.name == name) with _ | u
      · simp [getPlacesByUserId, huq, hfind] at h
      · by_cases hemp : (userPopView st u).places.isEmpty = true
        · simp [getPlacesByUserId, huq, hfind, hemp] at h
        · simp [getPlacesByUserId, huq, hfind, hemp] at h
          rw [← h.2]
          exact userPopView_clean st u
  · intro req s v h
    have hok : (createPlace env st req).result.isOk = true := by
      rw [h]; rfl
    obtain ⟨g, up, u, -, -, -, -, -, -, heq⟩ :=
      createPlace_ok_cases env st req hok
    rw [heq] at h
    simp only [CResult.ok.injEq] at h
    rw [← h.2]
    exact createPlaceResponseView_clean _
  · intro req s v h
    have hok : (updatePlace env st req).result.isOk = true := by
      rw [h]; rfl
    obtain ⟨p, -, -, -, -, -, heq⟩ := updatePlace_ok_cases env st req hok
    rw [heq] at h
    simp only [CResult.ok.injEq] at h
    rw [← h.2]
    exact placeToView_clean _
  · intro userId pid s m h
    have hok : (deletePlace env st userId pid).result.isOk = true := by
      rw [h]; rfl
    obtain ⟨p, owner, -, -, -, -, -, heq⟩ :=
      deletePlace_ok_cases env st userId pid hok
    rw [heq] at h
    simp only [CResult.ok.injEq] at h
    exact h.2.symm

/-- Witness for C7: the serialized place returned by getPlaceById for the
stored place of st1 is clean. -/
theorem C7_witness :
    PlaceView.clean (placeToView
      { id := 10, title := "Office", description := "HQ",
        image := { url := "https://ik.imagekit.io/places/office",
                   fileId := "fid-0" },
        address := "1600 Amphitheatre Pkwy",
        location := { lat := "37.422", lng := "-122.084" },
        creator := 1 }) :=
  (C7_no_handle_or_password_in_responses env0 st1).2.1 10 200 _ rfl

/-- C8: evaluation at the failing input.  updatePlace has no null check
after findById: on a place id that resolves to no document the next line
dereferences null (place.creator.toString), so the call ends in the
uncaught-TypeError outcome and never produces the claimed not-found
error response. -/
theorem C8_update_missing_place_crashes :
    (updatePlace env0 st1 reqU99).result = CResult.crash ∧
    (CResult.crash : CResult PlaceView)
      ≠ .err 404 "Could not find a place for the provided place id." := by
  constructor
  · decide
  · decide

/-- C9 counterexample: on a store with no places and a query that
succeeds, getAllPlaces answers 200 with the empty collection rather than
the claimed 404: a resolved find() yields an array, and an array is
truthy in JS even when empty, so the not-found guard never fires. -/
theorem C9_counterexample :
    getAllPlaces env0 { places := [], users := [], nextId := 0 }
      = .ok 200 [] := by decide

/-- C9 amended: getAllPlaces answers the 404 not-found failure exactly
when the underlying query fails; otherwise it answers success with the
collection of all places, which is the empty collection when no places
exist. -/
theorem C9_amended_list_places (env : Env) (st : DB) :
    getAllPlaces env st
      = if env.placesFindFails then .err 404 "Could not find any place."
        else .ok 200 (st.places.map (placePopView st)) := by
  by_cases hpf : env.placesFindFails <;>
    simp [getAllPlaces, jsFalsyArray, hpf]

/-- C10: when the authenticated caller id resolves to no user while
geocoding and upload succeed, createPlace fails with the creator-not-found
error and writes nothing, but the upload call has already been made: the
creator-existence check runs only after the upload, so the uploaded image
is orphaned. -/
theorem C10_missing_creator_checked_after_upload (env : Env) (st : DB)
    (req : CreateReq) (hval : req.invalidParams = [])
    (g : Geo) (hg : env.geocode req.address = .ok g)
    (up : UploadResult)
    (hup : env.upload req.fileBuffer req.title.toLower = .ok up)
    (huf : env.userFindFails = false)
    (hu : findUserById st req.userId = none) :
    (createPlace env st req).result
        = .err 404 "Could not find a user with the provided id." ∧
    (createPlace env st req).st = st ∧
    (createPlace env st req).uploadCalled = true := by
  refine ⟨?_, ?_, ?_⟩ <;> simp [createPlace, hval, hg, hup, huf, hu]

/-- Witness for C10: caller id 5 resolves to no user in st1. -/
theorem C10_witness :
    (createPlace env0 st1 reqCMissing).result
        = .err 404 "Could not find a user with the provided id." ∧
    (createPlace env0 st1 reqCMissing).st = st1 ∧
    (createPlace env0 st1 reqCMissing).uploadCalled = true :=
  C10_missing_creator_checked_after_upload env0 st1 reqCMissing rfl _ rfl _ rfl
    rfl rfl
